import Mathlib

/-!
Verification of the `standard_interfaces` CDL-to-JSON-Schema converter and the
attribute validator.

The definitions below are a shallow embedding of
`src/standard_interfaces/cdl_to_json_schema.py` (classes `CDLParser` and
`JSONSchemaGenerator`) and `src/standard_interfaces/validator.py`
(`StandardAttrs`).  The Python code scans text with regular expressions; each
regular expression is embedded as an explicit character-list scanner with the
same matching semantics (greedy runs, anchored alternatives, leftmost
non-overlapping matches).  Character classes follow the ASCII reading of the
Python classes (`\w`, `\s`, `str.islower`, ...), which covers every input the
repository feeds to these functions.
-/

/-- ASCII model of the regex class `\s` (Python whitespace). -/
def isSpaceChar (c : Char) : Bool :=
  c = ' ' || c = '\t' || c = '\n' || c = '\x0d' || c = '\x0b' || c = '\x0c'

/-- ASCII model of the regex class `\w`. -/
def isWordChar (c : Char) : Bool :=
  c.isAlphanum || c = '_'

/-- The regex class `[_\d]` used for dimension size tokens. -/
def isTokChar (c : Char) : Bool :=
  c.isDigit || c = '_'

/-- `listStartsWith s p` holds when `p` is an initial segment of `s`. -/
def listStartsWith : List Char → List Char → Bool
  | _, [] => true
  | [], _ :: _ => false
  | a :: s, b :: p => a = b && listStartsWith s p

/-- Python's `p in s` substring test. -/
def listHasSub (s p : List Char) : Bool :=
  match s with
  | [] => p.isEmpty
  | _ :: t => listStartsWith s p || listHasSub t p

/-- `strEndsWith s p` holds when `p` is a final segment of `s` (Python `str.endswith`). -/
def strEndsWith (s p : String) : Bool :=
  decide (p.data.length ≤ s.data.length) &&
    decide (s.data.drop (s.data.length - p.data.length) = p.data)

/-- Python `str.startswith`. -/
def strStartsWith (s p : String) : Bool :=
  listStartsWith s.data p.data

/-- Python `str.strip()`: remove whitespace from both ends. -/
def pyStripList (cs : List Char) : List Char :=
  ((cs.dropWhile isSpaceChar).reverse.dropWhile isSpaceChar).reverse

/-- Python `str.strip()` on `String`. -/
def pyStrip (s : String) : String :=
  (pyStripList s.data).asString

/-- Split a character list at every occurrence of `sep` (Python `str.split(sep)`). -/
def splitOnChar (sep : Char) : List Char → List (List Char)
  | [] => [[]]
  | c :: rest =>
    let r := splitOnChar sep rest
    if c = sep then [] :: r
    else
      match r with
      | [] => [[c]]
      | h :: t => (c :: h) :: t

/-- Python `dict` assignment `d[k] = v`: overwrite in place, else append. -/
def dictInsert {α : Type} (k : String) (v : α) : List (String × α) → List (String × α)
  | [] => [(k, v)]
  | (k2, v2) :: rest => if k2 = k then (k, v) :: rest else (k2, v2) :: dictInsert k v rest

/-- True when the list has no two consecutive underscores. -/
def noDoubleUS : List Char → Bool
  | [] => true
  | [_] => true
  | a :: b :: rest => !(a = '_' && b = '_') && noDoubleUS (b :: rest)

/-- Numeric value of a list of decimal digits. -/
def digitsVal (cs : List Char) : Nat :=
  cs.foldl (fun n c => 10 * n + (c.toNat - '0'.toNat)) 0

/-- Python `int(s)` on a token drawn from `[_0-9]*`: underscores must sit
between digits (no leading, trailing or doubled underscore). -/
def pyIntParse (t : List Char) : Option Nat :=
  if t ≠ [] ∧ t.head? ≠ some '_' ∧ t.getLast? ≠ some '_' ∧ noDoubleUS t = true ∧
      t.all isTokChar = true then
    some (digitsVal (t.filter (fun c => c ≠ '_')))
  else none

/-- A NetCDF dimension parsed from CDL (`CDLDimension` dataclass); a `none`
size records the `_` placeholder / unparsable size token. -/
structure CDLDimension where
  name : String
  size : Option Nat
deriving DecidableEq, Repr

/-- A value stored in a variable's attribute mapping.  Numeric coercion in the
source tries `float` when the literal contains a dot, else `int`; a float is
carried here by its literal text because no downstream consumer computes with
it. -/
inductive AttrValue where
  | strV (s : String)
  | intV (n : Int)
  | floatV (raw : String)
deriving DecidableEq, Repr

/-- A NetCDF variable parsed from CDL (`CDLVariable` dataclass). -/
structure CDLVariable where
  name : String
  data_type : String
  dimensions : List String
  attributes : List (String × AttrValue)
deriving DecidableEq, Repr

/-- The result of `CDLParser.parse_cdl_file`: mappings are ordered key-value
lists with Python-`dict` update semantics (`dictInsert`).  The field `vars`
models the parser's `variables` mapping (`variables` is a reserved word
here). -/
structure ParsedUnit where
  global_attributes : List (String × String)
  dimensions : List (String × CDLDimension)
  vars : List (String × CDLVariable)
  source_file : String
deriving DecidableEq, Repr

/-- Remove a `//` comment from a single line (`re.sub(r"//.*$", ...)`). -/
def cutComment : List Char → List Char
  | [] => []
  | c :: rest =>
    if listStartsWith (c :: rest) ['/', '/'] then []
    else c :: cutComment rest

/-- Strip `//` line comments from the whole content. -/
def stripComments (cs : List Char) : List Char :=
  List.intercalate ['\n'] ((splitOnChar '\n' cs).map cutComment)

/-- Match `\s*:(\w+)\s*=\s*"([^"]*)"` at a `^` anchor; on success return the
attribute name, its value and the remainder after the closing quote. -/
def matchGAttrAt (cs : List Char) : Option (List Char × List Char × List Char) :=
  match cs.dropWhile isSpaceChar with
  | ':' :: r2 =>
    let name := r2.takeWhile isWordChar
    if name.isEmpty then none
    else
      match (r2.drop name.length).dropWhile isSpaceChar with
      | '=' :: r4 =>
        match r4.dropWhile isSpaceChar with
        | '"' :: r6 =>
          let v := r6.takeWhile (fun c => c ≠ '"')
          match r6.drop v.length with
          | '"' :: r7 => some (name, v, r7)
          | _ => none
        | _ => none
      | _ => none
  | _ => none

/-- Drop characters up to and including the next newline; `none` when no
newline remains (no further `^` anchor exists). -/
def afterNextNewline : List Char → Option (List Char)
  | [] => none
  | '\n' :: rest => some rest
  | _ :: rest => afterNextNewline rest

/-- All matches of the global-attribute pattern with `re.MULTILINE`
(`finditer` over `^` anchors, non-overlapping, left to right). -/
def scanGAttrsAux : Nat → List Char → List (List Char × List Char)
  | 0, _ => []
  | fuel + 1, cs =>
    match matchGAttrAt cs with
    | some (n, v, rest) =>
      (n, v) ::
        (match afterNextNewline rest with
         | some nxt => scanGAttrsAux fuel nxt
         | none => [])
    | none =>
      match afterNextNewline cs with
      | some nxt => scanGAttrsAux fuel nxt
      | none => []

/-- `CDLParser._parse_global_attributes`: the pattern is applied to the whole
content, each hit updating the mapping (last write wins). -/
def parse_global_attributes (cs : List Char) : List (String × String) :=
  (scanGAttrsAux (cs.length + 1) cs).foldl
    (fun d p => dictInsert p.1.asString p.2.asString d) []

/-- Characters following the last newline of a whitespace run; `none` when the
run holds no newline (so `\s*\n` cannot match there). -/
def afterLastNewline : List Char → Option (List Char)
  | [] => none
  | '\n' :: rest => some ((afterLastNewline rest).getD rest)
  | _ :: rest => afterLastNewline rest

/-- Find the first `marker` occurrence that is followed by `\s*\n`, and return
the text starting right after the newline matched by the (greedy) `\s*\n`. -/
def findSectionStart (marker : List Char) : List Char → Option (List Char)
  | [] => none
  | c :: rest =>
    if listStartsWith (c :: rest) marker then
      let afterM := (c :: rest).drop marker.length
      let run := afterM.takeWhile isSpaceChar
      match afterLastNewline run with
      | some tailRun => some (tailRun ++ afterM.drop run.length)
      | none => findSectionStart marker rest
    else findSectionStart marker rest

/-- Index of the first occurrence of `p` as a sublist. -/
def indexOfSub (p : List Char) : List Char → Option Nat
  | [] => if p.isEmpty then some 0 else none
  | c :: rest =>
    if listStartsWith (c :: rest) p then some 0
    else (indexOfSub p rest).map (· + 1)

/-- The lazy capture `(.*?)(?=endMarker|$)` in `re.DOTALL`: cut at the first
occurrence of `endMarker`, else at `$` (which sits before one final newline). -/
def truncAtMarkerOrEnd (endMarker : List Char) (cs : List Char) : List Char :=
  match indexOfSub endMarker cs with
  | some i => cs.take i
  | none =>
    match cs.getLast? with
    | some '\n' => cs.dropLast
    | _ => cs

/-- The body of a CDL section: text between `marker` (followed by `\s*\n`) and
`endMarker` or end of input. -/
def sectionContent (marker endMarker : List Char) (cs : List Char) : Option (List Char) :=
  (findSectionStart marker cs).map (truncAtMarkerOrEnd endMarker)

/-- Match `(\w+)\s*=\s*([_\d]+|\d+)` at one position; on success return the
name, the size token and the remainder. -/
def matchDimEntryAt (cs : List Char) : Option ((List Char × List Char) × List Char) :=
  let name := cs.takeWhile isWordChar
  if name.isEmpty then none
  else
    match (cs.drop name.length).dropWhile isSpaceChar with
    | '=' :: r3 =>
      let r4 := r3.dropWhile isSpaceChar
      let tok := r4.takeWhile isTokChar
      if tok.isEmpty then none else some ((name, tok), r4.drop tok.length)
    | _ => none

/-- `finditer` over the dimension-entry pattern: leftmost non-overlapping
matches, advancing one character after a failed start position. -/
def scanDimEntriesAux : Nat → List Char → List (List Char × List Char)
  | 0, _ => []
  | _ + 1, [] => []
  | fuel + 1, c :: cs =>
    match matchDimEntryAt (c :: cs) with
    | some (e, rest) => e :: scanDimEntriesAux fuel rest
    | none => scanDimEntriesAux fuel cs

/-- All `(name, size-token)` pairs captured in a dimensions section body. -/
def scanDimEntries (cs : List Char) : List (List Char × List Char) :=
  scanDimEntriesAux (cs.length + 1) cs

/-- Size stored for a captured token: the `_` placeholder parses to `none`,
otherwise `int(...)` is attempted and a failure also yields `none`. -/
def dimSizeOfToken (t : List Char) : Option Nat :=
  if t = ['_'] then none else pyIntParse t

/-- `CDLParser._parse_dimensions` applied to the comment-stripped content. -/
def parse_dimensions (cs : List Char) : List (String × CDLDimension) :=
  match sectionContent "dimensions:".data "variables:".data cs with
  | none => []
  | some body =>
    (scanDimEntries body).foldl
      (fun d p => dictInsert p.1.asString ⟨p.1.asString, dimSizeOfToken p.2⟩ d) []

/-- The lookahead `(?=\w+\s+\w+)` of the variable-block splitter: a word run,
at least one whitespace character, then another word character. -/
def lookaheadDecl (cs : List Char) : Bool :=
  let w1 := cs.takeWhile isWordChar
  if w1.isEmpty then false
  else
    let r1 := cs.drop w1.length
    let s1 := r1.takeWhile isSpaceChar
    if s1.isEmpty then false
    else
      match r1.drop s1.length with
      | c :: _ => isWordChar c
      | [] => false

/-- `re.split(r"\n\s*(?=\w+\s+\w+)", ...)`: cut before each variable
declaration, dropping the matched newline and indentation. -/
def splitVarBlocksAux : Nat → List Char → List Char → List (List Char)
  | 0, cur, _ => [cur.reverse]
  | _ + 1, cur, [] => [cur.reverse]
  | fuel + 1, cur, '\n' :: rest =>
    let run := rest.takeWhile isSpaceChar
    let after := rest.drop run.length
    if lookaheadDecl after then cur.reverse :: splitVarBlocksAux fuel [] after
    else splitVarBlocksAux fuel ('\n' :: cur) rest
  | fuel + 1, cur, c :: rest => splitVarBlocksAux fuel (c :: cur) rest

/-- Split a variables-section body into per-variable blocks. -/
def splitVarBlocks (cs : List Char) : List (List Char) :=
  splitVarBlocksAux (cs.length + 1) [] cs

/-- `;` preceded only by whitespace (the `\s*;` tail of the declaration

pattern). -/
def semiAfterWs (cs : List Char) : Bool :=
  match cs.dropWhile isSpaceChar with
  | ';' :: _ => true
  | _ => false

/-- Match the declaration pattern `(\w+)\s+(\w+)(?:\(([^)]+)\))?\s*;` at the
start of a line; returns data type, variable name and the dimension names
(Python splits the parenthesised list on `,` and strips each piece). -/
def matchDecl (cs : List Char) : Option (String × String × List String) :=
  let ty := cs.takeWhile isWordChar
  if ty.isEmpty then none
  else
    let r1 := cs.drop ty.length
    let sp := r1.takeWhile isSpaceChar
    if sp.isEmpty then none
    else
      let r2 := r1.drop sp.length
      let nm := r2.takeWhile isWordChar
      if nm.isEmpty then none
      else
        match r2.drop nm.length with
        | '(' :: r4 =>
          let inside := r4.takeWhile (fun c => c ≠ ')')
          match r4.drop inside.length with
          | ')' :: r5 =>
            if inside.isEmpty then none
            else if semiAfterWs r5 then
              some (ty.asString, nm.asString,
                (splitOnChar ',' inside).map (fun d => (pyStripList d).asString))
            else none
          | _ => none
        | r3 => if semiAfterWs r3 then some (ty.asString, nm.asString, []) else none

/-- Match the quoted attribute pattern `(\w+):(\w+)\s*=\s*"([^"]*)"` at the
start of a line; returns owner, attribute name and string value. -/
def matchStrAttr (cs : List Char) : Option (String × String × String) :=
  let w1 := cs.takeWhile isWordChar
  if w1.isEmpty then none
  else
    match cs.drop w1.length with
    | ':' :: r2 =>
      let w2 := r2.takeWhile isWordChar
      if w2.isEmpty then none
      else
        match (r2.drop w2.length).dropWhile isSpaceChar with
        | '=' :: r4 =>
          match r4.dropWhile isSpaceChar with
          | '"' :: r6 =>
            let v := r6.takeWhile (fun c => c ≠ '"')
            match r6.drop v.length with
            | '"' :: _ => some (w1.asString, w2.asString, v.asString)
            | _ => none
          | _ => none
        | _ => none
    | _ => none

/-- Match the unquoted attribute pattern `(\w+):(\w+)\s*=\s*([^;]+)`; the raw
value is the maximal run of non-semicolon characters. -/
def matchRawAttr (cs : List Char) : Option (String × String × List Char) :=
  let w1 := cs.takeWhile isWordChar
  if w1.isEmpty then none
  else
    match cs.drop w1.length with
    | ':' :: r2 =>
      let w2 := r2.takeWhile isWordChar
      if w2.isEmpty then none
      else
        match (r2.drop w2.length).dropWhile isSpaceChar with
        | '=' :: r4 =>
          let v := r4.takeWhile (fun c => c ≠ ';')
          if v.isEmpty then none else some (w1.asString, w2.asString, v)
        | _ => none
    | _ => none

/-- Drop one leading sign character of a numeric literal. -/
def dropSign : List Char → List Char
  | '+' :: r => r
  | '-' :: r => r
  | r => r

/-- A nonempty decimal digit run with Python's underscore rules. -/
def digitsRunOk (cs : List Char) : Bool :=
  decide (cs ≠ []) && decide (cs.head? ≠ some '_') && decide (cs.getLast? ≠ some '_') &&
    noDoubleUS cs && cs.all isTokChar

/-- Split at the first character satisfying `p` (separator removed). -/
def splitFirst (p : Char → Bool) : List Char → Option (List Char × List Char)
  | [] => none
  | c :: rest =>
    if p c then some ([], rest)
    else (splitFirst p rest).map (fun q => (c :: q.1, q.2))

/-- Validity of a Python `float(...)` literal that contains a dot: an optional
sign, an integer and/or fractional digit run around one dot, and an optional
signed exponent. -/
def pyFloatValid (cs0 : List Char) : Bool :=
  let cs := dropSign cs0
  let mantissaOk : List Char → Bool := fun m =>
    match splitFirst (fun c => c = '.') m with
    | none => digitsRunOk m
    | some (ip, fp) =>
      !(fp.contains '.') &&
        (ip.isEmpty || digitsRunOk ip) && (fp.isEmpty || digitsRunOk fp) &&
        !(ip.isEmpty && fp.isEmpty)
  match splitFirst (fun c => c = 'e' || c = 'E') cs with
  | none => mantissaOk cs
  | some (m, ex) => mantissaOk m && digitsRunOk (dropSign ex)

/-- Python `int(...)` over an arbitrary stripped literal: an optional sign and
an underscore-separated digit run. -/
def pyIntSigned (t : List Char) : Option Int :=
  match t with
  | '+' :: r => (pyIntParse r).map (fun n => (n : Int))
  | '-' :: r => (pyIntParse r).map (fun n => -(n : Int))
  | r => (pyIntParse r).map (fun n => (n : Int))

/-- Numeric coercion of an unquoted attribute value: `float` when the literal
contains a dot, else `int`, falling back to the raw string. -/
def coerceAttrValue (vRaw : List Char) : AttrValue :=
  let v := pyStripList vRaw
  if v.contains '.' then
    if pyFloatValid v then .floatV v.asString else .strV v.asString
  else
    match pyIntSigned v with
    | some n => .intV n
    | none => .strV v.asString

/-- Attribute lines of a block (`CDLParser._parse_variable_block` loop): a
quoted value whose owner matches the variable is stored as a string; otherwise
the unquoted pattern is tried with numeric coercion. -/
def parseAttrLines (varName : String) (lines : List (List Char))
    (attrs : List (String × AttrValue)) : List (String × AttrValue) :=
  lines.foldl
    (fun acc line =>
      let l := pyStripList line
      if l.isEmpty || l = [';'] then acc
      else
        match matchStrAttr l with
        | some (owner, a, v) =>
          if owner = varName then dictInsert a (.strV v) acc
          else
            match matchRawAttr l with
            | some (owner2, a2, v2) =>
              if owner2 = varName then dictInsert a2 (coerceAttrValue v2) acc else acc
            | none => acc
        | none =>
          match matchRawAttr l with
          | some (owner2, a2, v2) =>
            if owner2 = varName then dictInsert a2 (coerceAttrValue v2) acc else acc
          | none => acc)
    attrs

/-- `CDLParser._parse_variable_block`: a block whose declaration line fails the
pattern is skipped silently. -/
def parse_variable_block (block : List Char) (vars : List (String × CDLVariable)) :
    List (String × CDLVariable) :=
  match splitOnChar '\n' (pyStripList block) with
  | [] => vars
  | decl :: rest =>
    match matchDecl (pyStripList decl) with
    | none => vars
    | some (ty, nm, dims) =>
      dictInsert nm ⟨nm, ty, dims, parseAttrLines nm rest []⟩ vars

/-- `CDLParser._parse_variables` applied to the comment-stripped content. -/
def parse_variables (cs : List Char) : List (String × CDLVariable) :=
  match sectionContent "variables:".data "data:".data cs with
  | none => []
  | some body =>
    (splitVarBlocks body).foldl
      (fun vars block =>
        if (pyStripList block).isEmpty then vars else parse_variable_block block vars)
      []

/-- `CDLParser.parse_cdl_file` on in-memory content: strip comments, then parse
the three sections. -/
def parse_cdl_file (content : String) (source_file : String) : ParsedUnit :=
  let cs := stripComments content.data
  { global_attributes := parse_global_attributes cs
    dimensions := parse_dimensions cs
    vars := parse_variables cs
    source_file := source_file }

/-- One property of the dimensions sub-schema. -/
structure DimProp where
  type : String
  description : String
  minimum : Nat
deriving DecidableEq, Repr

/-- The dimensions sub-schema (`_generate_dimensions_schema` result). -/
structure DimensionsSchema where
  type : String
  description : String
  properties : List (String × DimProp)
  required : List String
  additionalProperties : Bool
deriving DecidableEq, Repr

/-- The `dimensions` array property inside one variable's schema. -/
structure VarDimsProp where
  type : String
  itemsType : String
  itemsPattern : String
  minItems : Nat
  maxItems : Nat
  description : String
deriving DecidableEq, Repr

/-- One variable's schema (`_generate_variable_schema` result).  Attribute
properties with fixed content are recorded by presence flags; `unitsExamples`
carries the `examples` payload of the `units` property, `geometryTypeEnum` the
`enum` of the `geometry_type` property.  A `none` in `required` models the
key being absent (the source only sets it when the list is nonempty). -/
structure VariableSchema where
  type : String
  description : AttrValue
  dimensionsProp : Option VarDimsProp
  unitsExamples : Option AttrValue
  longNameProp : Bool
  standardNameProp : Bool
  geometryTypeEnum : Option (List String)
  nodeCoordinatesProp : Bool
  nodeCountProp : Bool
  fillValueProp : Bool
  validMinProp : Bool
  validMaxProp : Bool
  required : Option (List String)
  additionalProperties : Bool
deriving DecidableEq, Repr

/-- The variables sub-schema (`_generate_variables_schema` result). -/
structure VariablesSchema where
  type : String
  description : String
  properties : List (String × VariableSchema)
  required : List String
  additionalProperties : Bool
deriving DecidableEq, Repr

/-- The fixed global-attributes sub-schema. -/
structure GlobalAttrsSchema where
  type : String
  description : String
  propertyKeys : List String
  additionalProperties : Bool
deriving DecidableEq, Repr

/-- The `x-source` provenance block. -/
structure XSource where
  format : String
  file : String
  generated : String
  generator : String
deriving DecidableEq, Repr

/-- The generated JSON Schema document (`generate_schema` result);
`schemaDialect` models the `$schema` key and `id` the `$id` key. -/
structure SchemaDocument where
  schemaDialect : String
  id : String
  title : String
  description : String
  type : String
  dimensionsSchema : DimensionsSchema
  variablesSchema : VariablesSchema
  globalAttributesSchema : GlobalAttrsSchema
  required : List String
  additionalProperties : Bool
  source : XSource
deriving DecidableEq, Repr

/-- The ordered table of domain name pieces of `_detect_domain`. -/
def domainTable : List (String × String) :=
  [("pf_", "pf_active"), ("tf_", "tf_active"), ("plasma_", "plasma"),
   ("vessel_", "vessel"), ("diag_", "diagnostics"), ("eq_", "equilibrium")]

/-- `JSONSchemaGenerator._detect_domain`: scan the variable names in mapping
order; the first name whose start matches a table entry fixes the domain,
otherwise the default is `"base"`. -/
def detect_domain : List String → String
  | [] => "base"
  | n :: rest =>
    match domainTable.find? (fun pr => strStartsWith n pr.1) with
    | some pr => pr.2
    | none => detect_domain rest

/-- The integer property generated for one dimension name
(loop body of `_generate_dimensions_schema`). -/
def dimPropertyFor (name : String) : DimProp :=
  if strEndsWith name "_node" then
    { type := "integer", description := "Dimension: " ++ name ++ " (minimum 3 for polygon nodes)",
      minimum := 3 }
  else if strEndsWith name "_element" then
    { type := "integer", description := "Dimension: " ++ name ++ " (number of elements)",
      minimum := 1 }
  else
    { type := "integer", description := "Dimension: " ++ name, minimum := 1 }

/-- `JSONSchemaGenerator._generate_dimensions_schema`. -/
def generate_dimensions_schema (dims : List (String × CDLDimension)) : DimensionsSchema :=
  { type := "object", description := "Dimension definitions",
    properties := dims.map (fun p => (p.1, dimPropertyFor p.1)),
    required := dims.map (fun p => p.1),
    additionalProperties := false }

/-- Python truthiness of `attributes.get(key)` for the attribute values in
play: `None`, the empty string, `0` and literal-zero floats are falsy.  A
float literal is zero exactly when every digit of its mantissa is `0`. -/
def attrTruthy : Option AttrValue → Bool
  | none => false
  | some (.strV s) => decide (s ≠ "")
  | some (.intV n) => decide (n ≠ 0)
  | some (.floatV raw) =>
    !((dropSign raw.data).takeWhile (fun c => c ≠ 'e' && c ≠ 'E')
        |>.filter Char.isDigit |>.all (fun c => c = '0'))

/-- `key in variable.attributes`. -/
def attrHasKey (attrs : List (String × AttrValue)) (k : String) : Bool :=
  (attrs.lookup k).isSome

/-- `JSONSchemaGenerator._generate_variable_schema`. -/
def generate_variable_schema (v : CDLVariable) : VariableSchema :=
  { type := "object",
    description := (v.attributes.lookup "long_name").getD (.strV ("Variable: " ++ v.name)),
    dimensionsProp :=
      if v.dimensions ≠ [] then
        some { type := "array", itemsType := "string",
               itemsPattern := "^[a-zA-Z_][a-zA-Z0-9_]*$",
               minItems := v.dimensions.length, maxItems := v.dimensions.length,
               description := "Dimension names for this variable" }
      else none,
    unitsExamples := v.attributes.lookup "units",
    longNameProp := attrHasKey v.attributes "long_name",
    standardNameProp := attrHasKey v.attributes "standard_name",
    geometryTypeEnum :=
      if attrHasKey v.attributes "geometry_type" then some ["polygon", "line", "point"]
      else none,
    nodeCoordinatesProp := attrHasKey v.attributes "node_coordinates",
    nodeCountProp := attrHasKey v.attributes "node_count",
    fillValueProp := attrHasKey v.attributes "_FillValue",
    validMinProp := attrHasKey v.attributes "valid_min",
    validMaxProp := attrHasKey v.attributes "valid_max",
    required :=
      let req :=
        (if v.dimensions ≠ [] then ["dimensions"] else []) ++
        (if attrHasKey v.attributes "units" then ["units"] else []) ++
        (if attrHasKey v.attributes "geometry_type" then
          ["geometry_type", "node_coordinates", "node_count"] else []);
      if req = [] then none else some req,
    additionalProperties := true }

/-- `JSONSchemaGenerator._generate_variables_schema`: a variable joins the
section's `required` list when `geometry_type` or `units` is truthy or the
name contains `geometry`. -/
def generate_variables_schema (vars : List (String × CDLVariable)) : VariablesSchema :=
  { type := "object", description := "Variable definitions",
    properties := vars.map (fun p => (p.1, generate_variable_schema p.2)),
    required :=
      (vars.filter (fun p =>
        attrTruthy (p.2.attributes.lookup "geometry_type") ||
        attrTruthy (p.2.attributes.lookup "units") ||
        listHasSub p.1.data "geometry".data)).map (fun p => p.1),
    additionalProperties := true }

/-- `JSONSchemaGenerator._generate_global_attributes_schema`: a fixed set of
optional, described string properties. -/
def generate_global_attributes_schema (_gattrs : List (String × String)) : GlobalAttrsSchema :=
  { type := "object", description := "Global metadata attributes",
    propertyKeys := ["title", "institution", "source", "conventions", "comment"],
    additionalProperties := true }

/-- `JSONSchemaGenerator.generate_schema`; `now` stands for the
`datetime.now().isoformat()` call. -/
def generate_schema (base_url : String) (cdl : ParsedUnit) (schema_id : String)
    (now : String) : SchemaDocument :=
  let domain := detect_domain (cdl.vars.map (fun p => p.1))
  { schemaDialect := "http://json-schema.org/draft-07/schema#",
    id := base_url ++ "/" ++ domain ++ "/" ++ schema_id,
    title := (cdl.global_attributes.lookup "title").getD "NetCDF Schema",
    description := "Schema for " ++ (cdl.global_attributes.lookup "title").getD "NetCDF data" ++
      " - Generated from CDL",
    type := "object",
    dimensionsSchema := generate_dimensions_schema cdl.dimensions,
    variablesSchema := generate_variables_schema cdl.vars,
    globalAttributesSchema := generate_global_attributes_schema cdl.global_attributes,
    required := ["dimensions", "variables"],
    additionalProperties := true,
    source := { format := "CDL", file := cdl.source_file,
                generated := now, generator := "cdl_to_json_schema.py" } }

/-- Replace the generation timestamp of a document. -/
def setGenerated (d : SchemaDocument) (t : String) : SchemaDocument :=
  { d with source := { d.source with generated := t } }

/-- Python `str.islower()` under the ASCII model: at least one cased character
and every cased character lowercase. -/
def pyIslower (s : String) : Bool :=
  s.data.any (fun c => c.isUpper || c.isLower) &&
    s.data.all (fun c => !(c.isUpper || c.isLower) || c.isLower)

/-- `v[0].isalpha()` (false on the empty string; the source only evaluates it
on nonempty input). -/
def pyFirstAlpha (s : String) : Bool :=
  match s.data with
  | c :: _ => c.isAlpha
  | [] => false

/-- The failure classes raised by `StandardAttrs` validation, one constructor
per `raise` site of `validator.py`:
`valueEmptyName` is the generic `ValueError("standard_name must be a non-empty
string")`, `nameInvalid` the `NameError` naming-policy violation,
`undefinedUnit` the registry resolution failure, `valueUnits` the canonical
token-set mismatch `ValueError`, and `valueMissingUnits` the Fusion
convention-coupling `ValueError`. -/
inductive VError where
  | valueEmptyName
  | nameInvalid (v : String)
  | undefinedUnit (v : String)
  | valueUnits (v : String)
  | valueMissingUnits
deriving DecidableEq, Repr

/-- Decidable equality of validation results. -/
instance {ε α : Type} [DecidableEq ε] [DecidableEq α] : DecidableEq (Except ε α) := fun a b =>
  match a, b with
  | .error e1, .error e2 =>
    if h : e1 = e2 then .isTrue (congrArg Except.error h)
    else .isFalse (fun hh => h (Except.error.inj hh))
  | .ok a1, .ok a2 =>
    if h : a1 = a2 then .isTrue (congrArg Except.ok h)
    else .isFalse (fun hh => h (Except.ok.inj hh))
  | .error _, .ok _ => .isFalse (fun hh => Except.noConfusion hh)
  | .ok _, .error _ => .isFalse (fun hh => Except.noConfusion hh)

/-- `StandardAttrs.validate_standard_name`. -/
def validate_standard_name (v : Option String) : Except VError (Option String) :=
  match v with
  | none => .ok none
  | some s =>
    if pyStrip s = "" then .error .valueEmptyName
    else if !(pyIslower s && pyFirstAlpha s && !(s.data.contains ' ')) then
      .error (.nameInvalid s)
    else .ok (some s)

/-- `StandardAttrs.ALLOWED_SPECIAL_UNITS`. -/
def ALLOWED_SPECIAL_UNITS : List String := ["1", "none", "", "undefined"]

/-- Python `str.lower()` under the ASCII model. -/
def pyLower (s : String) : String :=
  (s.data.map Char.toLower).asString

/-- Equality of the two sides of `set(a) == set(b)` on token lists. -/
def listSetEq (a b : List String) : Bool :=
  a.all (fun x => b.contains x) && b.all (fun x => a.contains x)

/-- `StandardAttrs.validate_units`.  The external pint unit registry of
`imas_standard_names` is abstracted as `reg`, mapping a unit string to its
canonical `~U`-formatted form, or `none` when the unit is undefined (the
uncaught `UndefinedUnitError` of `unit_registry.Unit(v)`). -/
def validate_units (reg : String → Option String) (v : Option String) :
    Except VError (Option String) :=
  match v with
  | none => .ok none
  | some s =>
    if ALLOWED_SPECIAL_UNITS.contains (pyLower s) then .ok (some s)
    else
      match reg s with
      | none => .error (.undefinedUnit s)
      | some pint =>
        if listSetEq ((splitOnChar '.' s.data).map List.asString)
            ((splitOnChar '.' pint.data).map List.asString) then .ok (some s)
        else .error (.valueUnits s)

/-- `StandardAttrs.validate_fusion_convention` (the `mode="after"` model
validator). -/
def validate_fusion_convention (sn u : Option String) :
    Except VError (Option String × Option String) :=
  if sn.isSome && u.isNone then .error .valueMissingUnits else .ok (sn, u)

/-- Construction of `StandardAttrs(standard_name=sn, units=u)`: the field
validators run in field order, then the model validator; the first failure is
raised.  (When both field validators fail, pydantic may report both
`ValueError`s together; every claim below observes only the first failure
class, for which this sequential model agrees with pydantic.) -/
def mkStandardAttrs (reg : String → Option String) (sn u : Option String) :
    Except VError (Option String × Option String) := do
  let sn2 ← validate_standard_name sn
  let u2 ← validate_units reg u
  validate_fusion_convention sn2 u2

/-- Modelled from the spec: the external unit registry (`unit_registry` from
`imas_standard_names.units`, not part of this repository) "resolv[es] unit
strings to canonical physical-unit representations".  This concrete instance
resolves the kelvin symbol used by the spec's example to itself. -/
def regK : String → Option String :=
  fun s => if s = "K" then some "K" else none

/-- The spec's description of domain classification (section 4.2), written
directly from its words: the first variable name matching one of the fixed
ordered list of name starts determines the label, else the default label
`"base"` is returned. -/
def domainSpec (names : List String) : String :=
  ((names.find? (fun n => domainTable.any (fun pr => strStartsWith n pr.1))).bind
    (fun m => (domainTable.find? (fun pr => strStartsWith m pr.1)).map (fun pr => pr.2))).getD
    "base"

/-- Key-level draft-07 object validation: every required key must be present,
and with `additionalProperties: false` every instance key must be declared. -/
def objectKeysAdmit (propKeys required : List String) (addl : Bool)
    (instKeys : List String) : Bool :=
  required.all (fun r => instKeys.contains r) &&
    (addl || instKeys.all (fun k => propKeys.contains k))

/-- The exact single-line CDL input of the end-to-end claim. -/
def singleLineCdl : String :=
  "netcdf t \x7b dimensions: time = UNLIMITED; coil = 1; variables: double time(time); time:units = \"s\"; double coil_current(time,coil); coil_current:units = \"A\"; \x7d"

/-- The same CDL written with a line break after each section header and with
the parser's `_` placeholder in place of `UNLIMITED`. -/
def multiLineCdl : String :=
  "netcdf t \x7b\ndimensions:\n  time = _ ;\n  coil = 1 ;\nvariables:\n  double time(time) ;\n  time:units = \"s\" ;\n  double coil_current(time,coil) ;\n  coil_current:units = \"A\" ;\n\x7d\n"

/-- A CDL content whose dimensions section holds the real-CDL `UNLIMITED`
keyword next to a numeric size. -/
def unlimitedCdl : String :=
  "netcdf t \x7b\ndimensions:\n  time = UNLIMITED ;\n  coil = 1 ;\nvariables:\n  double time(time) ;\n\x7d\n"

/-- A CDL content with one global-attribute line before the `dimensions:`
marker and one after it. -/
def lateAttrCdl : String :=
  "netcdf t \x7b\n:title = \"T\" ;\ndimensions:\n  x = 1 ;\n  :late = \"v\" ;\n\x7d\n"

set_option maxRecDepth 10000

theorem matchDimEntryAt_tok {cs : List Char} {n t rest : List Char}
    (h : matchDimEntryAt cs = some ((n, t), rest)) :
    t ≠ [] ∧ t.all isTokChar = true ∧ n ≠ [] ∧ n.all isWordChar = true := by
  dsimp only [matchDimEntryAt] at h
  split at h
  · exact absurd h (by simp)
  · rename_i hn
    split at h
    · rename_i r3 heq
      split at h
      · exact absurd h (by simp)
      · rename_i ht
        injection h with h1
        cases h1
        exact ⟨by simpa using ht, List.all_takeWhile, by simpa using hn, List.all_takeWhile⟩
    · exact absurd h (by simp)

theorem scanDimEntriesAux_tok :
    ∀ (fuel : Nat) (cs : List Char) (n t : List Char),
      (n, t) ∈ scanDimEntriesAux fuel cs →
      t ≠ [] ∧ t.all isTokChar = true ∧ n ≠ [] ∧ n.all isWordChar = true := by
  intro fuel
  induction fuel with
  | zero => intro cs n t h; simp [scanDimEntriesAux] at h
  | succ f ih =>
    intro cs n t h
    cases cs with
    | nil => simp [scanDimEntriesAux] at h
    | cons c rest =>
      rw [scanDimEntriesAux] at h
      split at h
      · rename_i e r heq
        rcases List.mem_cons.mp h with h1 | h1
        · cases h1
          exact matchDimEntryAt_tok heq
        · exact ih r n t h1
      · exact ih rest n t h

theorem digit_ne_us {c : Char} (h : c.isDigit = true) : ¬(c = '_') := by
  intro he; rw [he] at h; exact absurd h (by decide)

theorem mem_of_getLast_opt : ∀ {l : List Char} {c : Char}, l.getLast? = some c → c ∈ l
  | [], c, h => by simp at h
  | [a], c, h => by simp [List.getLast?] at h; simp [h]
  | a :: b :: t, c, h => by
    rw [List.getLast?_cons_cons] at h
    exact List.mem_cons_of_mem a (mem_of_getLast_opt h)

theorem noDoubleUS_of_digits :
    ∀ (t : List Char), t.all Char.isDigit = true → noDoubleUS t = true
  | [], _ => rfl
  | [_], _ => rfl
  | a :: b :: r, h => by
    have ha : a.isDigit = true := by simp [List.all_cons] at h; exact h.1
    have h2 : (b :: r).all Char.isDigit = true := by
      simp [List.all_cons] at h ⊢; exact ⟨h.2.1, h.2.2⟩
    rw [noDoubleUS, noDoubleUS_of_digits (b :: r) h2]
    simp [digit_ne_us ha]

theorem all_tok_of_digits {t : List Char} (h : t.all Char.isDigit = true) :
    t.all isTokChar = true := by
  rw [List.all_eq_true] at h ⊢
  intro c hc
  simp [isTokChar, h c hc]

theorem pyIntParse_digits {t : List Char} (hne : t ≠ []) (h : t.all Char.isDigit = true) :
    pyIntParse t = some (digitsVal t) := by
  have hall := List.all_eq_true.mp h
  have hhead : t.head? ≠ some '_' := by
    cases t with
    | nil => simp
    | cons a r =>
      simp only [List.head?, ne_eq, Option.some.injEq]
      exact digit_ne_us (hall a (List.mem_cons_self a r))
  have hlast : t.getLast? ≠ some '_' := by
    intro hl
    exact digit_ne_us (hall '_' (mem_of_getLast_opt hl)) rfl
  have hfil : t.filter (fun c => c ≠ '_') = t := by
    rw [List.filter_eq_self]
    intro a ha
    simpa using digit_ne_us (hall a ha)
  rw [pyIntParse,
    if_pos ⟨hne, hhead, hlast, noDoubleUS_of_digits t h, all_tok_of_digits h⟩, hfil]

theorem asString_eq_nil_iff (l : List Char) : l.asString = "" ↔ l = [] := by
  constructor
  · intro h
    have h2 := congrArg String.data h
    simpa using h2
  · intro h; rw [h]; rfl

theorem pyStripList_eq_nil_iff (cs : List Char) :
    pyStripList cs = [] ↔ ∀ c ∈ cs, isSpaceChar c = true := by
  unfold pyStripList
  rw [List.reverse_eq_nil_iff, List.dropWhile_eq_nil_iff]
  constructor
  · intro h c hc
    rcases List.mem_append.mp ((List.takeWhile_append_dropWhile isSpaceChar cs) ▸ hc) with h1 | h1
    · exact List.all_eq_true.mp List.all_takeWhile c h1
    · exact h c (List.mem_reverse.mpr h1)
  · intro h c hc
    exact h c ((List.dropWhile_sublist isSpaceChar).subset (List.mem_reverse.mp hc))

theorem validate_standard_name_eval (s : String) :
    validate_standard_name (some s) =
      (if pyStrip s = "" then .error .valueEmptyName
       else if (pyIslower s && pyFirstAlpha s && !(s.data.contains ' ')) = true then .ok (some s)
       else .error (.nameInvalid s)) := by
  rw [validate_standard_name]
  by_cases h1 : pyStrip s = ""
  · rw [if_pos h1, if_pos h1]
  · rw [if_neg h1, if_neg h1]
    cases hc : (pyIslower s && pyFirstAlpha s && !(s.data.contains ' '))
    · simp [hc]
    · simp [hc]

theorem domainSpec_cons_pos {n : String} (rest : List String) {pr : String × String}
    (hpred : (fun nn => domainTable.any (fun q => strStartsWith nn q.1)) n = true)
    (hf : domainTable.find? (fun q => strStartsWith n q.1) = some pr) :
    domainSpec (n :: rest) = pr.2 := by
  rw [domainSpec, List.find?_cons_of_pos rest hpred, Option.some_bind, hf, Option.map_some',
    Option.getD_some]

theorem domainSpec_cons_neg {n : String} (rest : List String)
    (hpred : (fun nn => domainTable.any (fun q => strStartsWith nn q.1)) n = false) :
    domainSpec (n :: rest) = domainSpec rest := by
  rw [domainSpec, domainSpec, List.find?_cons_of_neg rest (by simp [hpred])]

theorem detect_domain_eq_domainSpec (names : List String) :
    detect_domain names = domainSpec names := by
  induction names with
  | nil => rfl
  | cons n rest ih =>
    rw [detect_domain]
    cases hf : domainTable.find? (fun q => strStartsWith n q.1) with
    | some pr =>
      have hs : strStartsWith n pr.1 = true := by simpa using List.find?_some hf
      have hpred : (fun nn => domainTable.any (fun q => strStartsWith nn q.1)) n = true := by
        show domainTable.any (fun q => strStartsWith n q.1) = true
        exact List.any_eq_true.mpr ⟨pr, List.mem_of_find?_eq_some hf, hs⟩
      rw [domainSpec_cons_pos rest hpred hf]
    | none =>
      have hpred : (fun nn => domainTable.any (fun q => strStartsWith nn q.1)) n = false := by
        show domainTable.any (fun q => strStartsWith n q.1) = false
        rw [← Bool.not_eq_true, List.any_eq_true]
        rintro ⟨q, hq, hs⟩
        rw [List.find?_eq_none] at hf
        exact hf q hq hs
      rw [domainSpec_cons_neg rest hpred]
      exact ih

/-- C1 (counterexample): on the exact single-line CDL input of the claim, the
section patterns `dimensions:\s*\n` and `variables:\s*\n` find no line break
after the markers, so the generated document's `dimensions.properties` and
`variables.properties` are both empty instead of holding `time`/`coil` and
`time`/`coil_current`. -/
theorem c1_single_line_sections_empty :
    (generate_schema "https://schemas.standard-interfaces.org"
        (parse_cdl_file singleLineCdl "coil-current.cdl") "coil-current.schema.json"
        "2026-10-12T00:00:00").dimensionsSchema.properties = [] ∧
    (generate_schema "https://schemas.standard-interfaces.org"
        (parse_cdl_file singleLineCdl "coil-current.cdl") "coil-current.schema.json"
        "2026-10-12T00:00:00").variablesSchema.properties = [] ∧
    (generate_schema "https://schemas.standard-interfaces.org"
        (parse_cdl_file singleLineCdl "coil-current.cdl") "coil-current.schema.json"
        "2026-10-12T00:00:00").variablesSchema.required = [] := by
  refine ⟨by decide, by decide, by decide⟩

/-- C1 (amended): for the same CDL written with a line break after each
section header and with the `_` placeholder in place of `UNLIMITED`, parsing
followed by schema generation yields `dimensions.properties` mapping exactly
`time` and `coil` to integer properties with minimum 1, and
`variables.properties` mapping exactly `time` and `coil_current`, both listed
in the variables section's required list. -/
theorem c1_minimal_cdl_schema :
    (generate_schema "https://schemas.standard-interfaces.org"
        (parse_cdl_file multiLineCdl "coil-current.cdl") "coil-current.schema.json"
        "2026-10-12T00:00:00").dimensionsSchema.properties =
      [("time", ⟨"integer", "Dimension: time", 1⟩),
       ("coil", ⟨"integer", "Dimension: coil", 1⟩)] ∧
    (generate_schema "https://schemas.standard-interfaces.org"
        (parse_cdl_file multiLineCdl "coil-current.cdl") "coil-current.schema.json"
        "2026-10-12T00:00:00").variablesSchema.properties.map (fun p => p.1) =
      ["time", "coil_current"] ∧
    (generate_schema "https://schemas.standard-interfaces.org"
        (parse_cdl_file multiLineCdl "coil-current.cdl") "coil-current.schema.json"
        "2026-10-12T00:00:00").variablesSchema.required = ["time", "coil_current"] := by
  refine ⟨by decide, by decide, by decide⟩

/-- C2 (counterexample): in a dimensions section holding
`time = UNLIMITED ;` and `coil = 1 ;`, the entry with the non-numeric token
`UNLIMITED` is not recorded at all — the parsed mapping has no `time` key —
while the claim asserts it would be recorded with a null size. -/
theorem c2_unlimited_entry_dropped :
    (parse_cdl_file unlimitedCdl "t.cdl").dimensions.lookup "time" = none ∧
    (parse_cdl_file unlimitedCdl "t.cdl").dimensions =
      [("coil", ⟨"coil", some 1⟩)] := by
  refine ⟨by decide, by decide⟩

/-- C2 (amended): every entry captured in a dimensions section carries a
nonempty value token drawn from digits and underscores only (so an alphabetic
token such as `UNLIMITED` is never captured); the token `_` yields a null
size, and a token of decimal digits yields that integer as the size. -/
theorem c2_dimension_size_tokens (content : List Char) (n t : List Char)
    (h : (n, t) ∈ scanDimEntries content) :
    (t ≠ [] ∧ t.all isTokChar = true) ∧
    (t = ['_'] → dimSizeOfToken t = none) ∧
    (t.all Char.isDigit = true → dimSizeOfToken t = some (digitsVal t)) := by
  obtain ⟨ht1, ht2, _, _⟩ := scanDimEntriesAux_tok _ content n t h
  refine ⟨⟨ht1, ht2⟩, ?_, ?_⟩
  · intro he; rw [dimSizeOfToken, if_pos he]
  · intro hd
    have hne : ¬(t = ['_']) := by
      intro he; rw [he] at hd; exact absurd hd (by decide)
    rw [dimSizeOfToken, if_neg hne, pyIntParse_digits ht1 hd]

/-- C2 (witness): concrete instances of the amended statement. -/
theorem c2_dimension_size_tokens_witness :
    dimSizeOfToken ['1', '2'] = some (digitsVal ['1', '2']) ∧ dimSizeOfToken ['_'] = none :=
  ⟨(c2_dimension_size_tokens "k = 12".data ['k'] ['1', '2'] (by decide)).2.2 (by decide),
   (c2_dimension_size_tokens "k2 = _".data ['k', '2'] ['_'] (by decide)).2.1 rfl⟩

/-- C3 (code_bug evaluation): in `lateAttrCdl` the line `:late = "v" ;` sits
after the `dimensions:` marker (sublist position 50 versus 26), yet
global-attribute extraction records it: the scan runs over the whole content,
contradicting the claim and the function's own comment; the duplicate-free
last-write mapping keeps both attributes. -/
theorem c3_global_attribute_after_dimensions_recorded :
    (parse_cdl_file lateAttrCdl "t.cdl").global_attributes =
      [("title", "T"), ("late", "v")] ∧
    indexOfSub "dimensions:".data lateAttrCdl.data = some 26 ∧
    indexOfSub ":late".data lateAttrCdl.data = some 50 := by
  refine ⟨by decide, by decide, by decide⟩

/-- C4 (counterexample): the standard name `"a\tb"` contains a tab — a
whitespace character — yet validation accepts it, because the source only
rejects the space character; the claim's "no whitespace character of any kind"
is false of the code. -/
theorem c4_tab_standard_name_accepted :
    validate_standard_name (some "a\tb") = .ok (some "a\tb") ∧
    '\t' ∈ "a\tb".data ∧ isSpaceChar '\t' = true :=
  ⟨by decide, by decide, by decide⟩

/-- C4 (amended): a present standard_name is accepted exactly when it has a
non-whitespace character, is lowercase (`str.islower`), starts with a letter
and contains no space character U+0020 (tab and newline are not rejected); an
all-whitespace or empty string raises the generic value failure, while the
other violations raise the distinct invalid-standard-name failure. -/
theorem c4_standard_name_rules (s : String) :
    (validate_standard_name (some s) = .ok (some s) ↔
      ((∃ c ∈ s.data, isSpaceChar c = false) ∧ pyIslower s = true ∧ pyFirstAlpha s = true ∧
        s.data.contains ' ' = false)) ∧
    ((∀ c ∈ s.data, isSpaceChar c = true) →
      validate_standard_name (some s) = .error .valueEmptyName) ∧
    ((∃ c ∈ s.data, isSpaceChar c = false) →
      ¬(pyIslower s = true ∧ pyFirstAlpha s = true ∧ s.data.contains ' ' = false) →
      validate_standard_name (some s) = .error (.nameInvalid s)) := by
  have heval := validate_standard_name_eval s
  have hstrip : (pyStrip s = "") ↔ ∀ c ∈ s.data, isSpaceChar c = true := by
    rw [pyStrip, asString_eq_nil_iff, pyStripList_eq_nil_iff]
  have hex : (∃ c ∈ s.data, isSpaceChar c = false) ↔ ¬(pyStrip s = "") := by
    rw [hstrip]
    constructor
    · rintro ⟨c, hc, hcf⟩ hall
      exact absurd (hall c hc) (by simp [hcf])
    · intro h
      by_contra hne
      push_neg at hne
      refine h (fun c hc => ?_)
      have h2 := hne c hc
      cases hcc : isSpaceChar c
      · exact absurd hcc h2
      · rfl
  have hcond : ((pyIslower s && pyFirstAlpha s && !(s.data.contains ' ')) = true) ↔
      (pyIslower s = true ∧ pyFirstAlpha s = true ∧ s.data.contains ' ' = false) := by
    simp [Bool.and_eq_true, Bool.not_eq_true', and_assoc]
  refine ⟨⟨?_, ?_⟩, ?_, ?_⟩
  · intro h
    by_cases h1 : pyStrip s = ""
    · rw [heval, if_pos h1] at h; exact absurd h (by simp)
    · by_cases h2 : (pyIslower s && pyFirstAlpha s && !(s.data.contains ' ')) = true
      · exact ⟨hex.mpr h1, hcond.mp h2⟩
      · rw [heval, if_neg h1, if_neg h2] at h; exact absurd h (by simp)
  · rintro ⟨he, hrest⟩
    rw [heval, if_neg (hex.mp he), if_pos (hcond.mpr hrest)]
  · intro hall
    rw [heval, if_pos (hstrip.mpr hall)]
  · intro he hnc
    rw [heval, if_neg (hex.mp he), if_neg (fun hc => hnc (hcond.mp hc))]

/-- C4 (witness): concrete instances of all three branches of the amended
statement. -/
theorem c4_standard_name_rules_witness :
    validate_standard_name (some "air_temperature") = .ok (some "air_temperature") ∧
    validate_standard_name (some " ") = .error .valueEmptyName ∧
    validate_standard_name (some "Air") = .error (.nameInvalid "Air") := by
  refine ⟨?_, ?_, ?_⟩
  · exact (c4_standard_name_rules "air_temperature").1.mpr (by decide)
  · exact (c4_standard_name_rules " ").2.1 (by decide)
  · exact (c4_standard_name_rules "Air").2.2 (by decide) (by decide)

/-- C5 (counterexample): for `standard_name="Air Temperature"` with
`units=None` the construction fails with the naming-policy violation, not the
missing-required-units coupling violation, because the field validator runs
before the model validator; so the claim's universal statement ("for every
input with standard_name present and units absent, validation fails with the
coupling failure") is false. -/
theorem c5_naming_failure_precedes_coupling :
    mkStandardAttrs regK (some "Air Temperature") none =
      .error (.nameInvalid "Air Temperature") ∧
    VError.nameInvalid "Air Temperature" ≠ VError.valueMissingUnits := by
  refine ⟨?_, by decide⟩
  unfold mkStandardAttrs
  rw [show validate_standard_name (some "Air Temperature") =
    Except.error (VError.nameInvalid "Air Temperature") from by decide]
  rfl

/-- C5 (amended): when the present standard_name passes its own validation and
units is absent, construction fails with the distinct coupling violation; and
the three concrete examples behave as stated: `"Air Temperature"`/`"K"` fails
with the naming violation, `"air_temperature"`/`None` fails with the coupling
violation, and `"air_temperature"`/`"K"` succeeds (for any registry resolving
`K` to itself). -/
theorem c5_units_coupling (reg : String → Option String) (sn : String) :
    (validate_standard_name (some sn) = .ok (some sn) →
      mkStandardAttrs reg (some sn) none = .error .valueMissingUnits) ∧
    mkStandardAttrs reg (some "Air Temperature") (some "K") =
      .error (.nameInvalid "Air Temperature") ∧
    mkStandardAttrs reg (some "air_temperature") none = .error .valueMissingUnits ∧
    (reg "K" = some "K" →
      mkStandardAttrs reg (some "air_temperature") (some "K") =
        .ok (some "air_temperature", some "K")) := by
  refine ⟨?_, ?_, ?_, ?_⟩
  · intro h
    unfold mkStandardAttrs
    rw [h]
    rfl
  · unfold mkStandardAttrs
    rw [show validate_standard_name (some "Air Temperature") =
      Except.error (VError.nameInvalid "Air Temperature") from by decide]
    rfl
  · unfold mkStandardAttrs
    rw [show validate_standard_name (some "air_temperature") =
      Except.ok (some "air_temperature") from by decide]
    rfl
  · intro hK
    have hu : validate_units reg (some "K") = Except.ok (some "K") := by
      simp only [validate_units]
      rw [if_neg (by decide), hK]
      decide
    unfold mkStandardAttrs
    rw [show validate_standard_name (some "air_temperature") =
      Except.ok (some "air_temperature") from by decide, hu]
    rfl

/-- C5 (witness): the amended statement instantiated at the modelled registry
and the spec's example name. -/
theorem c5_units_coupling_witness :
    mkStandardAttrs regK (some "air_temperature") none = .error .valueMissingUnits ∧
    mkStandardAttrs regK (some "air_temperature") (some "K") =
      .ok (some "air_temperature", some "K") :=
  ⟨(c5_units_coupling regK "air_temperature").1 (by decide),
   (c5_units_coupling regK "air_temperature").2.2.2 (by decide)⟩

/-- C6 (confirmed): every variable whose attributes contain the key
`geometry_type` gets a per-variable schema whose required list holds all three
of `geometry_type`, `node_coordinates` and `node_count`, and whose
`geometry_type` property is constrained to the enum
`{polygon, line, point}`. -/
theorem c6_geometry_container_required (v : CDLVariable)
    (h : attrHasKey v.attributes "geometry_type" = true) :
    (∃ r, (generate_variable_schema v).required = some r ∧
      "geometry_type" ∈ r ∧ "node_coordinates" ∈ r ∧ "node_count" ∈ r) ∧
    (generate_variable_schema v).geometryTypeEnum = some ["polygon", "line", "point"] := by
  constructor
  · refine ⟨(if v.dimensions ≠ [] then ["dimensions"] else []) ++
      (if attrHasKey v.attributes "units" then ["units"] else []) ++
      ["geometry_type", "node_coordinates", "node_count"], ?_, by simp, by simp, by simp⟩
    simp only [generate_variable_schema, h, if_true]
    rw [if_neg]
    intro hnil
    rcases List.append_eq_nil.mp hnil with ⟨_, h3⟩
    exact List.noConfusion h3
  · simp [generate_variable_schema, h]

/-- C6 (witness): the spec's polygon geometry-container example. -/
theorem c6_geometry_container_required_witness :
    (∃ r, (generate_variable_schema
        ⟨"geometry", "int", [],
          [("geometry_type", AttrValue.strV "polygon"),
           ("node_coordinates", AttrValue.strV "r z"),
           ("node_count", AttrValue.strV "polygon_node_count")]⟩).required = some r ∧
      "geometry_type" ∈ r ∧ "node_coordinates" ∈ r ∧ "node_count" ∈ r) ∧
    (generate_variable_schema
        ⟨"geometry", "int", [],
          [("geometry_type", AttrValue.strV "polygon"),
           ("node_coordinates", AttrValue.strV "r z"),
           ("node_count", AttrValue.strV "polygon_node_count")]⟩).geometryTypeEnum =
      some ["polygon", "line", "point"] :=
  c6_geometry_container_required _ (by decide)

/-- C7 (confirmed): the dimensions sub-schema maps each dimension name to the
property built by `dimPropertyFor`; that property is an integer property whose
minimum is 3 when the name ends in `_node` and 1 otherwise (including names
ending in `_element`); in particular `polygon_node` gets 3 while `foo_element`
and `time` get 1. -/
theorem c7_dimension_minimums (dims : List (String × CDLDimension)) (name : String) :
    (generate_dimensions_schema dims).properties =
      dims.map (fun p => (p.1, dimPropertyFor p.1)) ∧
    (dimPropertyFor name).type = "integer" ∧
    (dimPropertyFor name).minimum = (if strEndsWith name "_node" = true then 3 else 1) ∧
    (dimPropertyFor "polygon_node").minimum = 3 ∧
    (dimPropertyFor "foo_element").minimum = 1 ∧
    (dimPropertyFor "time").minimum = 1 := by
  refine ⟨rfl, ?_, ?_, by decide, by decide, by decide⟩ <;>
    by_cases h1 : strEndsWith name "_node" = true <;>
    by_cases h2 : strEndsWith name "_element" = true <;>
    simp [dimPropertyFor, h1, h2]

/-- C8 (confirmed): domain classification agrees with the spec's first-match
description over the fixed table, classifies prefix-free variable sets as
`base`, and classifies a mapping whose (first matching) key is
`pf_coil_current` as `pf_active`. -/
theorem c8_domain_classification (names : List String) :
    detect_domain names = domainSpec names ∧
    ((∀ n ∈ names, domainTable.all (fun pr => !(strStartsWith n pr.1)) = true) →
      detect_domain names = "base") ∧
    detect_domain ["pf_coil_current"] = "pf_active" := by
  refine ⟨detect_domain_eq_domainSpec names, ?_, by decide⟩
  intro hall
  rw [detect_domain_eq_domainSpec, domainSpec]
  have hnone : names.find? (fun n => domainTable.any (fun pr => strStartsWith n pr.1)) = none := by
    rw [List.find?_eq_none]
    intro x hx hany
    rw [List.any_eq_true] at hany
    obtain ⟨pr, hpr, hs⟩ := hany
    have h2 := List.all_eq_true.mp (hall x hx) pr hpr
    rw [hs] at h2
    exact Bool.noConfusion h2
  rw [hnone, Option.none_bind, Option.getD_none]

/-- C8 (witness): a variable set with no recognized name start classifies as
`base`. -/
theorem c8_domain_classification_witness : detect_domain ["time", "coil_current"] = "base" :=
  (c8_domain_classification ["time", "coil_current"]).2.1 (by decide)

/-- C9 (confirmed): generating twice from the same parsed unit, schema id and
base URL yields documents equal in every field except the embedded generation
timestamp: the first document is the second with its timestamp replaced. -/
theorem c9_regeneration_timestamp_only (base : String) (cdl : ParsedUnit)
    (sid t1 t2 : String) :
    generate_schema base cdl sid t1 = setGenerated (generate_schema base cdl sid t2) t1 := rfl

/-- C10 (confirmed): the dimensions sub-schema closes its key set
(`additionalProperties: false`, all dimension names required), so an instance
carrying an undeclared dimension key fails its key-level check, while the
top-level document, the variables sub-schema, every per-variable schema and
the global-attributes sub-schema set `additionalProperties: true`. -/
theorem c10_additional_properties_policy (base : String) (cdl : ParsedUnit) (sid t : String)
    (k : String) (ks : List String) :
    (generate_schema base cdl sid t).dimensionsSchema.additionalProperties = false ∧
    (generate_schema base cdl sid t).dimensionsSchema.required =
      cdl.dimensions.map (fun p => p.1) ∧
    (k ∈ ks → k ∉ cdl.dimensions.map (fun p => p.1) →
      objectKeysAdmit
        ((generate_schema base cdl sid t).dimensionsSchema.properties.map (fun p => p.1))
        ((generate_schema base cdl sid t).dimensionsSchema.required)
        ((generate_schema base cdl sid t).dimensionsSchema.additionalProperties) ks = false) ∧
    (generate_schema base cdl sid t).additionalProperties = true ∧
    (generate_schema base cdl sid t).variablesSchema.additionalProperties = true ∧
    (∀ p ∈ (generate_schema base cdl sid t).variablesSchema.properties,
      p.2.additionalProperties = true) ∧
    (generate_schema base cdl sid t).globalAttributesSchema.additionalProperties = true := by
  refine ⟨rfl, rfl, ?_, rfl, rfl, ?_, rfl⟩
  · intro hk hnk
    have hkeys : (generate_schema base cdl sid t).dimensionsSchema.properties.map (fun p => p.1)
        = cdl.dimensions.map (fun p => p.1) := by
      show (cdl.dimensions.map (fun p => (p.1, dimPropertyFor p.1))).map (fun p => p.1) =
        cdl.dimensions.map (fun p => p.1)
      rw [List.map_map]
      rfl
    have hksall : ks.all (fun k2 => (cdl.dimensions.map (fun p => p.1)).contains k2) = false := by
      rw [← Bool.not_eq_true, List.all_eq_true]
      intro hall
      have h2 := hall k hk
      exact hnk (by simpa using h2)
    show objectKeysAdmit _ _ false ks = false
    rw [objectKeysAdmit, hkeys, Bool.false_or, hksall, Bool.and_false]
  · intro p hp
    have hp2 : p ∈ cdl.vars.map (fun q => (q.1, generate_variable_schema q.2)) := hp
    rw [List.mem_map] at hp2
    obtain ⟨q, _, hq⟩ := hp2
    rw [← hq]
    rfl

/-- C10 (witness): a dataset instance carrying the undeclared dimension key
`extra` is rejected by the dimensions sub-schema generated for a unit whose
only dimension is `time`. -/
theorem c10_additional_properties_policy_witness :
    objectKeysAdmit
      ((generate_schema "b" ⟨[], [("time", ⟨"time", none⟩)], [], "f.cdl"⟩ "s" "t"
        ).dimensionsSchema.properties.map (fun p => p.1))
      ((generate_schema "b" ⟨[], [("time", ⟨"time", none⟩)], [], "f.cdl"⟩ "s" "t"
        ).dimensionsSchema.required)
      ((generate_schema "b" ⟨[], [("time", ⟨"time", none⟩)], [], "f.cdl"⟩ "s" "t"
        ).dimensionsSchema.additionalProperties) ["extra", "time"] = false :=
  (c10_additional_properties_policy "b" ⟨[], [("time", ⟨"time", none⟩)], [], "f.cdl"⟩ "s" "t"
    "extra" ["extra", "time"]).2.2.1 (by decide) (by decide)
